import Mathlib

/-!
Shallow embedding of the `cyoa` story engine (src/engine.rs and
src/engine/parser.rs).  Rust `HashMap`s are modelled as association lists,
Rust panics and the unbounded string-interpolation recursion are modelled by
an `Except EvalErr` result with an explicit fuel parameter; every other
definition follows the source line by line.
-/

namespace Cyoa

/-- Rust `FormatStringPart` (parser.rs): `Literal(String) | Name(String)`. -/
inductive FormatStringPart where
  | literal (s : String)
  | name (s : String)
  deriving DecidableEq, Repr

/-- Rust `FormatString(pub Vec<FormatStringPart>)` (tuple struct, field `.0`). -/
structure FormatString where
  parts : List FormatStringPart
  deriving DecidableEq, Repr

/-- Rust `Value`: `Bool(bool) | Int(i32) | String(FormatString)`.  The `i32`
payload is modelled as `Int`; the parser enforces the 32-bit range and the
engine never does arithmetic, only comparisons, so the ranges agree. -/
inductive Value where
  | bool (b : Bool)
  | int (i : Int)
  | string (s : FormatString)
  deriving DecidableEq, Repr

/-- Rust `Value::is_truthy` (parser.rs lines 30-37). -/
def Value.is_truthy : Value → Bool
  | .bool b => b
  | .int i => i != 0
  | .string s => !s.parts.isEmpty

/-- Rust `Expression` (parser.rs): a value, a name, or one binary comparison. -/
inductive Expression where
  | value (v : Value)
  | name (n : String)
  | equals (left right : Expression)
  | notEquals (left right : Expression)
  | greaterThan (left right : Expression)
  | lessThan (left right : Expression)
  deriving DecidableEq, Repr

/-- Rust `Command`: `Set { name, value }`. -/
inductive Command where
  | set (name : String) (value : Value)
  deriving DecidableEq, Repr

/-- Rust `Choice` (parser.rs lines 107-113). -/
structure Choice where
  requirement : Option Expression
  text : FormatString
  next_node_id : String
  command : Option Command
  deriving DecidableEq, Repr

/-- Rust `Node` (parser.rs lines 115-119). -/
structure Node where
  display_text : FormatString
  choices : List Choice
  deriving DecidableEq, Repr

/-- Rust `ProgramPart` (parser.rs lines 294-297). -/
inductive ProgramPart where
  | nodeDefinition (id : String) (node : Node)
  | variableDefinition (name : String) (value : Value)
  deriving DecidableEq, Repr

/-- Rust `ParseError` (engine.rs lines 9-36): the semantic defect records. -/
inductive ParseErr where
  | missingStartNode
  | badReferenceInOption (parent_node_id bad_id : String)
  | badReferenceInString (parent_node_id bad_name : String)
  | badReferenceInExpression (parent_node_id bad_name : String)
  | invalidExpression (parent_node_id : String) (expression : Expression)
  | badReferenceInCommand (parent_node_id bad_name : String)
  | invalidCommand (parent_node_id : String) (command : Command)
  deriving DecidableEq, Repr

/-- Association-list model of `HashMap::get`: first binding wins. -/
def lookupA {α : Type} : List (String × α) → String → Option α
  | [], _ => none
  | (k, v) :: rest, key => if k = key then some v else lookupA rest key

/-- Association-list model of `HashMap::contains_key`. -/
def containsA {α : Type} (l : List (String × α)) (key : String) : Bool :=
  (lookupA l key).isSome

/-- Association-list model of `HashMap::insert` (overwrite). -/
def insertA {α : Type} (l : List (String × α)) (key : String) (v : α) :
    List (String × α) :=
  (key, v) :: l.filter (fun p => p.1 ≠ key)

/-- Association-list model of `HashMap::get_mut` + assignment: replace the
binding of `key` in place. -/
def updateA {α : Type} : List (String × α) → String → α → List (String × α)
  | [], _, _ => []
  | (k, v) :: rest, key, newV =>
    if k = key then (k, newV) :: rest else (k, v) :: updateA rest key newV

/-- Rust `Engine` (engine.rs lines 91-94); `Session.created_at` and the
expiry clock live outside the core and are not modelled. -/
structure Engine where
  default_variables : List (String × Value)
  all_nodes : List (String × Node)
  deriving DecidableEq, Repr

/-- Rust `Session` (engine.rs lines 75-79), without the timestamp; the field
`vars` embeds the Rust field `variables`, whose name is reserved in Lean. -/
structure Session where
  vars : List (String × Value)
  current_node_id : String
  deriving DecidableEq, Repr

/-- Rust `ChoiceView` (engine.rs lines 52-56). -/
structure ChoiceView where
  display_text : String
  id : String
  deriving DecidableEq, Repr

/-- Rust `CurrentNodeView` (engine.rs lines 58-63). -/
structure CurrentNodeView where
  display_text : String
  choices : List ChoiceView
  game_over : Bool
  deriving DecidableEq, Repr

/-- Rust `ChoiceResult` (engine.rs lines 65-72). -/
inductive ChoiceResult where
  | success
  | invalidOption (current_node_id : String) (chosen_option : String)
  deriving DecidableEq, Repr

/-- The ways an evaluator call can fail to return: a Rust panic
(`unwrap` on a missing variable or node, an ordering comparison on
non-integers, the `find` after the membership check) or fuel exhaustion
standing in for the unbounded interpolation recursion. -/
inductive EvalErr where
  | fuelOut
  | missingVar (name : String)
  | missingNode (id : String)
  | orderingOnNonInt
  | findFailed
  deriving DecidableEq, Repr

/-- Rust `Engine::new_session` (engine.rs lines 105-111). -/
def new_session (e : Engine) : Session :=
  { vars := e.default_variables, current_node_id := "START" }

/-- Rust `Engine::bad_names_in_string` (engine.rs lines 113-123). -/
def bad_names_in_string (e : Engine) (s : FormatString) : List String :=
  s.parts.filterMap fun part =>
    match part with
    | .name n => if containsA e.default_variables n then none else some n
    | .literal _ => none

/-- Rust `Engine::bad_names_in_expression` (engine.rs lines 125-143). -/
def bad_names_in_expression (e : Engine) : Expression → List String
  | .value _ => []
  | .name n => if containsA e.default_variables n then [] else [n]
  | .equals l r | .notEquals l r | .greaterThan l r | .lessThan l r =>
    bad_names_in_expression e l ++ bad_names_in_expression e r

/-- The if-let chain `Engine::expression_is_valid` applies to each ordering
operand (engine.rs lines 153-166, written out twice there for `left_is_int`
and `right_is_int`): an integer literal, or a name whose declared default
value is an Int. -/
def operand_is_int (e : Engine) : Expression → Bool
  | .value (.int _) => true
  | .name n =>
    match lookupA e.default_variables n with
    | some (.int _) => true
    | _ => false
  | _ => false

/-- Rust `Engine::expression_is_valid` (engine.rs lines 145-175). -/
def expression_is_valid (e : Engine) : Expression → Bool
  | .value _ => true
  | .name n => containsA e.default_variables n
  | .equals l r | .notEquals l r =>
    expression_is_valid e l && expression_is_valid e r
  | .greaterThan l r | .lessThan l r =>
    if operand_is_int e l && operand_is_int e r then
      expression_is_valid e l && expression_is_valid e r
    else
      false

/-- Rust `Engine::bad_names_in_command` (engine.rs lines 177-190). -/
def bad_names_in_command (e : Engine) : Command → List String
  | .set n v =>
    (if containsA e.default_variables n then [] else [n]) ++
      (match v with
       | .string s => bad_names_in_string e s
       | _ => [])

/-- Rust `Engine::command_is_valid` (engine.rs lines 192-202). -/
def command_is_valid (e : Engine) : Command → Bool
  | .set n v =>
    containsA e.default_variables n &&
      (match v with
       | .int _ | .bool _ => true
       | .string s => (bad_names_in_string e s).isEmpty)

/-- Concatenation of the per-element lists, mirroring repeated
`Vec::push`/`extend` inside a `for` loop. -/
def flatMapL {α β : Type} (f : α → List β) : List α → List β
  | [] => []
  | a :: l => f a ++ flatMapL f l

/-- Errors produced for one choice of a node: the body of the inner `for`
loop of `Engine::errors` (engine.rs lines 219-266). -/
def choiceErrors (e : Engine) (id : String) (c : Choice) : List ParseErr :=
  (bad_names_in_string e c.text).map (fun n => ParseErr.badReferenceInString id n) ++
  (if containsA e.all_nodes c.next_node_id then []
   else [ParseErr.badReferenceInOption id c.next_node_id]) ++
  (match c.requirement with
   | none => []
   | some req =>
     (bad_names_in_expression e req).map
       (fun n => ParseErr.badReferenceInExpression id n) ++
     (if expression_is_valid e req then []
      else [ParseErr.invalidExpression id req])) ++
  (match c.command with
   | none => []
   | some cmd =>
     (bad_names_in_command e cmd).map
       (fun n => ParseErr.badReferenceInCommand id n) ++
     (if command_is_valid e cmd then []
      else [ParseErr.invalidCommand id cmd]))

/-- Rust `Engine::errors` (engine.rs lines 204-270). -/
def errors (e : Engine) : List ParseErr :=
  (if containsA e.all_nodes "START" then [] else [ParseErr.missingStartNode]) ++
  flatMapL
    (fun p =>
      (bad_names_in_string e p.2.display_text).map
        (fun n => ParseErr.badReferenceInString p.1 n) ++
      flatMapL (choiceErrors e p.1) p.2.choices)
    e.all_nodes

/-- The interpolation work list: rendering either one value or a list of
format-string parts.  Rust's mutually recursive `value_to_string` and
`evaluate_string` are combined into one fuel-indexed function so that the
kernel can evaluate it. -/
inductive RenderTask where
  | val (v : Value)
  | parts (l : List FormatStringPart)

/-- One step of Rust `Engine::value_to_string` / `Engine::evaluate_string`
(engine.rs lines 313-338): fuel exhaustion models the unbounded recursion
through variable lookups, `missingVar` models the `unwrap` panic. -/
def renderGo (e : Engine) (s : Session) : Nat → RenderTask → Except EvalErr String
  | 0, _ => .error .fuelOut
  | fuel + 1, task =>
    match task with
    | .parts [] => .ok ""
    | .parts (.literal t :: rest) =>
      (renderGo e s fuel (.parts rest)).map (fun r => t ++ r)
    | .parts (.name n :: rest) =>
      match lookupA s.vars n with
      | none => .error (.missingVar n)
      | some v => do
        let head ← renderGo e s fuel (.val v)
        let tail ← renderGo e s fuel (.parts rest)
        pure (head ++ tail)
    | .val (.int i) => .ok (toString i)
    | .val (.bool b) => .ok (if b then "true" else "false")
    | .val (.string fs) => renderGo e s fuel (.parts fs.parts)

/-- Rust `Engine::evaluate_string` (engine.rs lines 321-338). -/
def evaluate_string (fuel : Nat) (e : Engine) (s : Session) (input : FormatString) :
    Except EvalErr String :=
  renderGo e s fuel (.parts input.parts)

/-- Rust `Engine::value_to_string` (engine.rs lines 313-319). -/
def value_to_string (fuel : Nat) (e : Engine) (s : Session) (v : Value) :
    Except EvalErr String :=
  renderGo e s fuel (.val v)

/-- Rust `Engine::values_are_equal` (engine.rs lines 340-349). -/
def values_are_equal (fuel : Nat) (e : Engine) (s : Session) (left right : Value) :
    Except EvalErr Bool :=
  match left, right with
  | .int l, .int r => .ok (l == r)
  | .bool l, .bool r => .ok (l == r)
  | .string l, .string r => do
    let lt ← evaluate_string fuel e s l
    let rt ← evaluate_string fuel e s r
    pure (lt == rt)
  | _, _ => .ok false

/-- Rust `Engine::evaluate_expression` (engine.rs lines 351-382):
`orderingOnNonInt` models the two `panic!` arms of the ordering operators. -/
def evaluate_expression (fuel : Nat) (e : Engine) (s : Session) :
    Expression → Except EvalErr Value
  | .value v => .ok v
  | .name n =>
    match lookupA s.vars n with
    | none => .error (.missingVar n)
    | some v => .ok v
  | .equals l r => do
    let lv ← evaluate_expression fuel e s l
    let rv ← evaluate_expression fuel e s r
    let b ← values_are_equal fuel e s lv rv
    pure (.bool b)
  | .notEquals l r => do
    let lv ← evaluate_expression fuel e s l
    let rv ← evaluate_expression fuel e s r
    let b ← values_are_equal fuel e s lv rv
    pure (.bool !b)
  | .greaterThan l r => do
    let lv ← evaluate_expression fuel e s l
    let rv ← evaluate_expression fuel e s r
    match lv, rv with
    | .int a, .int b => pure (.bool (a > b))
    | _, _ => .error .orderingOnNonInt
  | .lessThan l r => do
    let lv ← evaluate_expression fuel e s l
    let rv ← evaluate_expression fuel e s r
    match lv, rv with
    | .int a, .int b => pure (.bool (a < b))
    | _, _ => .error .orderingOnNonInt

/-- Rust `Engine::get_current_node` (engine.rs lines 384-388), with the
`unwrap` panic exposed as `none`. -/
def get_current_node (e : Engine) (s : Session) : Option Node :=
  lookupA e.all_nodes s.current_node_id

/-- Rust `Engine::get_valid_options_ids` (engine.rs lines 390-396). -/
def get_valid_options_ids (e : Engine) (s : Session) : Except EvalErr (List String) :=
  match get_current_node e s with
  | none => .error (.missingNode s.current_node_id)
  | some node => .ok (node.choices.map (fun c => c.next_node_id))

/-- The `filter_map` over choices inside `Engine::get_current_node_view`
(engine.rs lines 402-417): per choice, evaluate the requirement (dropping the
choice when falsy), then render the choice text. -/
def viewChoices (fuel : Nat) (e : Engine) (s : Session) :
    List Choice → Except EvalErr (List ChoiceView)
  | [] => .ok []
  | c :: rest => do
    let keep ←
      match c.requirement with
      | none => pure true
      | some req => do
        let v ← evaluate_expression fuel e s req
        pure v.is_truthy
    if keep then do
      let txt ← evaluate_string fuel e s c.text
      let tail ← viewChoices fuel e s rest
      pure ({ display_text := txt, id := c.next_node_id } :: tail)
    else
      viewChoices fuel e s rest

/-- Rust `Engine::get_current_node_view` (engine.rs lines 398-425). -/
def get_current_node_view (fuel : Nat) (e : Engine) (s : Session) :
    Except EvalErr CurrentNodeView :=
  match get_current_node e s with
  | none => .error (.missingNode s.current_node_id)
  | some node => do
    let display ← evaluate_string fuel e s node.display_text
    let choices ← viewChoices fuel e s node.choices
    pure { display_text := display, choices := choices,
           game_over := node.choices.isEmpty }

/-- Rust `Engine::do_command` (engine.rs lines 427-434), with the `get_mut`
`unwrap` panic exposed as `missingVar`. -/
def do_command (s : Session) : Command → Except EvalErr Session
  | .set n v =>
    match lookupA s.vars n with
    | none => .error (.missingVar n)
    | some _ => .ok { s with vars := updateA s.vars n v }

/-- Rust `Engine::choose_option` (engine.rs lines 436-459). -/
def choose_option (e : Engine) (s : Session) (next_node_id : String) :
    Except EvalErr (Session × ChoiceResult) :=
  match get_current_node e s with
  | none => .error (.missingNode s.current_node_id)
  | some node =>
    let valid_options := node.choices.map (fun c => c.next_node_id)
    if !valid_options.contains next_node_id then
      .ok (s, .invalidOption s.current_node_id next_node_id)
    else
      match node.choices.find? (fun c => c.next_node_id == next_node_id) with
      | none => .error .findFailed
      | some choice => do
        let s1 ←
          match choice.command with
          | none => pure s
          | some cmd => do_command s cmd
        pure ({ s1 with current_node_id := next_node_id }, .success)

/-! ### The parser (src/engine/parser.rs)

nom parsers `&str -> IResult<&str, T>` are embedded as
`List Char → Option (List Char × T)`; `none` is a recoverable nom error.
None of the grammar's parsers uses `cut`, so the two nom failure kinds
collapse to one. -/

/-- The embedded parser type. -/
abbrev P (α : Type) : Type := List Char → Option (List Char × α)

/-- Is `pre` a prefix of `input`? -/
def hasPrefixL : List Char → List Char → Bool
  | [], _ => true
  | _ :: _, [] => false
  | c :: cs, d :: ds => c = d && hasPrefixL cs ds

/-- nom `tag`. -/
def tagP (t : List Char) : P (List Char) := fun input =>
  if hasPrefixL t input then some (input.drop t.length, t) else none

/-- nom `char`. -/
def chrP (c : Char) : P Char := fun input =>
  match input with
  | d :: rest => if d = c then some (rest, c) else none
  | [] => none

/-- nom `take_while1`. -/
def takeWhile1P (f : Char → Bool) : P (List Char) := fun input =>
  let t := input.takeWhile f
  if t.isEmpty then none else some (input.drop t.length, t)

/-- nom whitespace class: space, tab, carriage return, line feed. -/
def isMultispaceChar (c : Char) : Bool :=
  c = ' ' || c = '\t' || c = '\r' || c = '\n'

/-- ASCII alphanumeric, as in nom `alphanumeric1`. -/
def isAlphanumericChar (c : Char) : Bool :=
  ('0' ≤ c && c ≤ '9') || ('a' ≤ c && c ≤ 'z') || ('A' ≤ c && c ≤ 'Z')

/-- nom `multispace0`. -/
def multispace0P : P Unit := fun input =>
  some (input.dropWhile isMultispaceChar, ())

/-- nom `multispace1`. -/
def multispace1P : P Unit := fun input =>
  let rest := input.dropWhile isMultispaceChar
  if rest.length = input.length then none else some (rest, ())

/-- nom `alphanumeric1`. -/
def alphanumeric1P : P (List Char) := takeWhile1P isAlphanumericChar

/-- nom `alt` over a list of alternatives: first success wins. -/
def altP {α : Type} : List (P α) → P α
  | [] => fun _ => none
  | p :: ps => fun input =>
    match p input with
    | some r => some r
    | none => altP ps input

/-- nom `opt`: never fails. -/
def optP {α : Type} (p : P α) : P (Option α) := fun input =>
  match p input with
  | some (rest, a) => some (rest, some a)
  | none => some (input, none)

/-- Sequencing of two parsers into a pair (nom `pair` / tuples). -/
def pairP {α β : Type} (p : P α) (q : P β) : P (α × β) := fun input =>
  match p input with
  | none => none
  | some (rest, a) =>
    match q rest with
    | none => none
    | some (rest2, b) => some (rest2, (a, b))

/-- nom `preceded`. -/
def precededP {α β : Type} (p : P α) (q : P β) : P β := fun input =>
  match p input with
  | none => none
  | some (rest, _) => q rest

/-- nom `terminated`. -/
def terminatedP {α β : Type} (p : P α) (q : P β) : P α := fun input =>
  match p input with
  | none => none
  | some (rest, a) =>
    match q rest with
    | none => none
    | some (rest2, _) => some (rest2, a)

/-- nom `delimited`. -/
def delimitedP {α β γ : Type} (p : P α) (q : P β) (r : P γ) : P β := fun input =>
  match p input with
  | none => none
  | some (r1, _) =>
    match q r1 with
    | none => none
    | some (r2, b) =>
      match r r2 with
      | none => none
      | some (r3, _) => some (r3, b)

/-- nom `separated_pair`. -/
def separatedPairP {α β γ : Type} (p : P α) (sep : P β) (q : P γ) : P (α × γ) :=
  fun input =>
    match p input with
    | none => none
    | some (r1, a) =>
      match sep r1 with
      | none => none
      | some (r2, _) =>
        match q r2 with
        | none => none
        | some (r3, c) => some (r3, (a, c))

/-- nom `many0`, fuel-indexed so the kernel can evaluate it: stop on inner
failure; error (as nom does) if the inner parser succeeds without consuming.
Fuel `input.length + 1` can never run out because every kept iteration
shortens the input. -/
def many0Go {α : Type} (p : P α) : Nat → P (List α)
  | 0, _ => none
  | fuel + 1, input =>
    match p input with
    | none => some (input, [])
    | some (rest, a) =>
      if rest.length < input.length then
        match many0Go p fuel rest with
        | none => none
        | some (rest2, as') => some (rest2, a :: as')
      else
        none

/-- nom `many0`. -/
def many0P {α : Type} (p : P α) : P (List α) := fun input =>
  many0Go p (input.length + 1) input

/-- nom `many1`: one occurrence, then `many0`. -/
def many1P {α : Type} (p : P α) : P (List α) := fun input =>
  match p input with
  | none => none
  | some (rest, a) =>
    match many0P p rest with
    | none => none
    | some (rest2, as') => some (rest2, a :: as')

/-- List-of-chunks concatenation, mirroring Rust `Vec::concat`. -/
def concatChunks : List (List Char) → List Char
  | [] => []
  | c :: cs => c ++ concatChunks cs

/-- Rust `parse_name` (parser.rs lines 121-125). -/
def parse_name : P String := fun input =>
  match many1P (altP [alphanumeric1P, tagP ['_']]) input with
  | none => none
  | some (rest, chunks) => some (rest, String.mk (concatChunks chunks))

/-- Rust `parse_id_definition` (parser.rs lines 127-129). -/
def parse_id_definition : P String :=
  precededP (pairP (chrP '=') multispace0P) parse_name

/-- Rust `parse_bool` (parser.rs lines 238-244). -/
def parse_bool : P Value := fun input =>
  altP [(fun i => (tagP "true".data i).map fun r => (r.1, Value.bool true)),
        (fun i => (tagP "false".data i).map fun r => (r.1, Value.bool false))] input

/-- Is this an ASCII digit? -/
def isDigitChar (c : Char) : Bool := '0' ≤ c && c ≤ '9'

/-- Numeric value of an ASCII digit. -/
def digitVal (c : Char) : Nat := c.toNat - '0'.toNat

/-- Rust `parse_int` (parser.rs lines 246-248), i.e. nom
`character::complete::i32`: optional sign, one or more digits, error on
overflow of the 32-bit signed range. -/
def parse_int : P Value := fun input =>
  let signAndRest : Int × List Char :=
    match input with
    | '+' :: r => (1, r)
    | '-' :: r => (-1, r)
    | r => (1, r)
  match takeWhile1P isDigitChar signAndRest.2 with
  | none => none
  | some (rest, ds) =>
    let n : Nat := ds.foldl (fun acc c => acc * 10 + digitVal c) 0
    let v : Int := signAndRest.1 * (n : Int)
    if -2147483648 ≤ v ∧ v ≤ 2147483647 then some (rest, Value.int v) else none

/-- Rust `parse_format_string_part_literal` (parser.rs lines 250-254): one or
more characters that are neither a double quote nor an opening brace. -/
def parse_format_string_part_literal : P FormatStringPart := fun input =>
  match takeWhile1P (fun c => c ≠ Char.ofNat 34 && c ≠ Char.ofNat 123) input with
  | none => none
  | some (rest, cs) => some (rest, FormatStringPart.literal (String.mk cs))

/-- Rust `parse_format_string_part_name` (parser.rs lines 256-260):
`{name}`. -/
def parse_format_string_part_name : P FormatStringPart := fun input =>
  match delimitedP (chrP (Char.ofNat 123)) parse_name (chrP (Char.ofNat 125)) input with
  | none => none
  | some (rest, n) => some (rest, FormatStringPart.name n)

/-- Rust `parse_format_string` (parser.rs lines 262-273). -/
def parse_format_string : P FormatString := fun input =>
  match delimitedP (chrP (Char.ofNat 34))
      (many0P (altP [parse_format_string_part_literal, parse_format_string_part_name]))
      (chrP (Char.ofNat 34)) input with
  | none => none
  | some (rest, parts) => some (rest, ⟨parts⟩)

/-- Rust `parse_string` (parser.rs lines 275-277). -/
def parse_string : P Value := fun input =>
  (parse_format_string input).map fun r => (r.1, Value.string r.2)

/-- Rust `parse_value` (parser.rs lines 279-281). -/
def parse_value : P Value := altP [parse_bool, parse_int, parse_string]

/-- Rust `parse_primary_expression` (parser.rs lines 131-137). -/
def parse_primary_expression : P Expression := fun input =>
  altP [(fun i => (parse_value i).map fun r => (r.1, Expression.value r.2)),
        (fun i => (parse_name i).map fun r => (r.1, Expression.name r.2))] input

/-- Rust `parse_expression` (parser.rs lines 139-166): one primary, then an
optional comparison operator and second primary; on operator-parse failure
the primary alone is returned with the input rewound. -/
def parse_expression : P Expression := fun input =>
  match parse_primary_expression input with
  | none => none
  | some (rest, left) =>
    match pairP
        (delimitedP multispace0P
          (altP [tagP "!=".data, tagP "=".data, tagP ">".data, tagP "<".data])
          multispace0P)
        parse_primary_expression rest with
    | some (rest2, (op, right)) =>
      some (rest2,
        if op = "!=".data then Expression.notEquals left right
        else if op = "=".data then Expression.equals left right
        else if op = ">".data then Expression.greaterThan left right
        else Expression.lessThan left right)
    | none => some (rest, left)

/-- Rust `parse_requirement` (parser.rs lines 168-175):
`[IF expression]`. -/
def parse_requirement : P Expression :=
  delimitedP
    (pairP (chrP '[') (pairP multispace0P (pairP (tagP "IF".data) multispace0P)))
    parse_expression
    (pairP multispace0P (chrP ']'))

/-- Rust `parse_command_set` (parser.rs lines 177-188): `name = value`. -/
def parse_command_set : P Command := fun input =>
  match parse_name input with
  | none => none
  | some (r1, n) =>
    match delimitedP multispace0P (chrP '=') multispace0P r1 with
    | none => none
    | some (r2, _) =>
      match parse_value r2 with
      | none => none
      | some (r3, v) => some (r3, Command.set n v)

/-- Rust `parse_command_inner` (parser.rs lines 190-192). -/
def parse_command_inner : P Command := altP [parse_command_set]

/-- Rust `parse_command` (parser.rs lines 194-201): `[THEN command]`. -/
def parse_command : P Command :=
  delimitedP
    (pairP (chrP '[') (pairP multispace0P (pairP (tagP "THEN".data) multispace0P)))
    parse_command_inner
    (pairP multispace0P (chrP ']'))

/-- Rust `parse_choice` (parser.rs lines 203-220). -/
def parse_choice : P Choice := fun input =>
  match optP (terminatedP parse_requirement multispace0P) input with
  | none => none
  | some (r1, req) =>
    match separatedPairP parse_format_string
        (delimitedP multispace0P (tagP "->".data) multispace0P)
        parse_name r1 with
    | none => none
    | some (r2, (text, next_node_id)) =>
      match optP (precededP multispace0P parse_command) r2 with
      | none => none
      | some (r3, cmd) =>
        some (r3, { requirement := req, text := text,
                    next_node_id := next_node_id, command := cmd })

/-- Rust `parse_node_body` (parser.rs lines 222-232). -/
def parse_node_body : P Node := fun input =>
  match precededP multispace0P parse_format_string input with
  | none => none
  | some (r1, display_text) =>
    match many0P (delimitedP multispace0P parse_choice multispace0P) r1 with
    | none => none
    | some (r2, choices) =>
      some (r2, { display_text := display_text, choices := choices })

/-- Rust `parse_node_definition` (parser.rs lines 234-236). -/
def parse_node_definition : P (String × Node) :=
  pairP parse_id_definition parse_node_body

/-- Rust `parse_variable_definition` (parser.rs lines 283-292):
`SET name value`. -/
def parse_variable_definition : P (String × Value) :=
  precededP (tagP "SET".data)
    (pairP (precededP multispace1P parse_name) (precededP multispace1P parse_value))

/-- Rust `parse_program_part` (parser.rs lines 299-306). -/
def parse_program_part : P ProgramPart := fun input =>
  altP
    [(fun i => (parse_node_definition i).map fun r =>
        (r.1, ProgramPart.nodeDefinition r.2.1 r.2.2)),
     (fun i => (parse_variable_definition i).map fun r =>
        (r.1, ProgramPart.variableDefinition r.2.1 r.2.2))] input

/-- Rust `parse_program` (parser.rs lines 308-310). -/
def parse_program : P (List ProgramPart) :=
  many0P (delimitedP multispace0P parse_program_part multispace0P)

/-! ### Engine construction (engine.rs `from_program`) -/

/-- Does the part match `ProgramPart::VariableDefinition { .. }`? -/
def ProgramPart.isVariableDefinition : ProgramPart → Bool
  | .variableDefinition _ _ => true
  | _ => false

/-- Does the part match `ProgramPart::NodeDefinition { .. }`? -/
def ProgramPart.isNodeDefinition : ProgramPart → Bool
  | .nodeDefinition _ _ => true
  | _ => false

/-- The construction loops of `Engine::from_program` (engine.rs lines
274-299): variable definitions first, then node definitions, each inserting
into the engine's maps (`add_node` is `insert`, engine.rs lines 309-311). -/
def buildEngine (parts : List ProgramPart) : Engine :=
  let variable_defs := parts.filter ProgramPart.isVariableDefinition
  let node_defs := parts.filter ProgramPart.isNodeDefinition
  let e1 := variable_defs.foldl
    (fun e p =>
      match p with
      | .variableDefinition n v =>
        { e with default_variables := insertA e.default_variables n v }
      | _ => e)
    { default_variables := [], all_nodes := [] }
  node_defs.foldl
    (fun e p =>
      match p with
      | .nodeDefinition id node => { e with all_nodes := insertA e.all_nodes id node }
      | _ => e)
    e1

/-- A failed build: `parseFail` models the `.expect` panic on a parser
error, `semantic` the returned error list. -/
inductive BuildErr where
  | parseFail
  | semantic (errs : List ParseErr)
  deriving DecidableEq, Repr

/-- Rust `Engine::from_program` (engine.rs lines 272-307).  The unconsumed
remainder of the input is discarded, exactly as the code's
`let (_, parts) = parse_program(source).expect(..)` does. -/
def from_program (source : String) : Except BuildErr Engine :=
  match parse_program source.data with
  | none => .error .parseFail
  | some (_, parts) =>
    let e := buildEngine parts
    if (errors e).isEmpty then .ok e else .error (.semantic (errors e))

/-! ### Derived predicates and concrete instances used by the theorems -/

deriving instance DecidableEq for Except

/-- The visibility test `get_current_node_view` applies to one choice: no
requirement, or a requirement that evaluates truthy.  (When evaluation
fails the whole render call fails, so the `error` arm is never consulted
under a successful render.) -/
def choice_is_visible (fuel : Nat) (e : Engine) (s : Session) (c : Choice) : Bool :=
  match c.requirement with
  | none => true
  | some req =>
    match evaluate_expression fuel e s req with
    | .ok v => v.is_truthy
    | .error _ => false

/-- Modelled from the spec: an ordering operand is statically Int-typed when
it is an integer literal or a name whose declared default value is an Int
(spec section 4.2).  Stated independently of `expression_is_valid` to compare
the code against the spec's wording. -/
def static_int_operand (e : Engine) : Expression → Bool
  | .value (.int _) => true
  | .name n =>
    match lookupA e.default_variables n with
    | some (.int _) => true
    | _ => false
  | _ => false

/-- Do two values carry the same constructor? -/
def Value.sameVariant : Value → Value → Bool
  | .int _, .int _ => true
  | .bool _, .bool _ => true
  | .string _, .string _ => true
  | _, _ => false

/-- A script that the validator accepts although rendering its START node
panics: the default value of `x` interpolates the undeclared name `y`, and
default variable values are never validated. -/
def c7_source : String := "SET x \"{y}\" =START \"{x}\""

/-- The engine `from_program` builds from `c7_source`. -/
def c7_engine : Engine :=
  { default_variables := [("x", Value.string ⟨[FormatStringPart.name "y"]⟩)],
    all_nodes := [("START", { display_text := ⟨[FormatStringPart.name "x"]⟩,
                              choices := [] })] }

/-- The requirement `flag = true` of `choiceB`. -/
def reqB : Expression :=
  Expression.equals (Expression.name "flag") (Expression.value (Value.bool true))

/-- The single authored choice of `nodeB_START`, gated by `flag = true`. -/
def choiceB : Choice :=
  { requirement := some reqB,
    text := ⟨[FormatStringPart.literal "go"]⟩,
    next_node_id := "A",
    command := none }

/-- The START node of `engineB`: one authored choice gated by
`flag = true`. -/
def nodeB_START : Node :=
  { display_text := ⟨[FormatStringPart.literal "hi"]⟩,
    choices := [choiceB] }

/-- A validated engine whose START node has one authored choice gated by a
requirement that is false in the initial session (spec scenario B). -/
def engineB : Engine :=
  { default_variables := [("flag", Value.bool false)],
    all_nodes :=
      [("START", nodeB_START),
       ("A", { display_text := ⟨[FormatStringPart.literal "end"]⟩, choices := [] })] }

/-- The START node of `engineDup`: two authored choices with the same
target `B` but different commands. -/
def nodeDup_START : Node :=
  { display_text := ⟨[FormatStringPart.literal "hi"]⟩,
    choices :=
      [{ requirement := none,
         text := ⟨[FormatStringPart.literal "first"]⟩,
         next_node_id := "B",
         command := some (Command.set "g" (Value.int 10)) },
       { requirement := none,
         text := ⟨[FormatStringPart.literal "second"]⟩,
         next_node_id := "B",
         command := some (Command.set "g" (Value.int 99)) }] }

/-- A validated engine whose START node has two authored choices with the
same target `B` but different commands. -/
def engineDup : Engine :=
  { default_variables := [("g", Value.int 0)],
    all_nodes :=
      [("START", nodeDup_START),
       ("B", { display_text := ⟨[FormatStringPart.literal "end"]⟩, choices := [] })] }

/-- The requirement `a > "x"` of `choice_c6`. -/
def req_c6 : Expression :=
  Expression.greaterThan (Expression.name "a")
    (Expression.value (Value.string ⟨[FormatStringPart.literal "x"]⟩))

/-- A choice whose requirement applies `>` to a string literal. -/
def choice_c6 : Choice :=
  { requirement := some req_c6,
    text := ⟨[FormatStringPart.literal "go"]⟩,
    next_node_id := "START",
    command := none }

/-- A node whose requirement applies `>` to a string literal. -/
def node_c6_START : Node :=
  { display_text := ⟨[FormatStringPart.literal "hi"]⟩,
    choices := [choice_c6] }

/-- An engine with one node whose requirement applies `>` to a string
literal, exercising the ordering-operator type restriction. -/
def c6_engine : Engine :=
  { default_variables := [("a", Value.int 1)],
    all_nodes := [("START", node_c6_START)] }

/-- The choice of the C2 counterexample, whose requirement is the
undeclared name `y`. -/
def choice_c2 : Choice :=
  { requirement := some (Expression.name "y"),
    text := ⟨[FormatStringPart.literal "go"]⟩,
    next_node_id := "START",
    command := none }

/-- The START node of the C2 counterexample: one choice whose requirement
is the undeclared name `y`. -/
def node_c2_START : Node :=
  { display_text := ⟨[FormatStringPart.literal "a"]⟩,
    choices := [choice_c2] }

/-- The engine built from the C2 counterexample script
`=START "a" [IF y] "go" -> START`. -/
def c2_engine : Engine :=
  { default_variables := [],
    all_nodes := [("START", node_c2_START)] }

/-! ### Helper lemmas -/

theorem flatMapL_eq_nil {α β : Type} (f : α → List β) (l : List α) :
    flatMapL f l = [] ↔ ∀ a ∈ l, f a = [] := by
  induction l with
  | nil => simp [flatMapL]
  | cons a l ih => simp [flatMapL, List.append_eq_nil, ih]

theorem mem_flatMapL {α β : Type} {b : β} (f : α → List β) (l : List α) :
    b ∈ flatMapL f l ↔ ∃ a ∈ l, b ∈ f a := by
  induction l with
  | nil => simp [flatMapL]
  | cons a l ih => simp [flatMapL, List.mem_append, ih]

theorem lookupA_mem {α : Type} :
    ∀ {l : List (String × α)} {k : String} {v : α},
      lookupA l k = some v → (k, v) ∈ l
  | (k', v') :: rest, k, v, h => by
    simp only [lookupA] at h
    split at h
    · next heq =>
      cases h
      exact heq ▸ List.mem_cons_self _ _
    · next hne => exact List.mem_cons_of_mem _ (lookupA_mem h)

/-- Membership in one choice's error list lifts to membership in the full
error list. -/
theorem choiceError_mem_errors {e : Engine} {p : String × Node} {c : Choice}
    {x : ParseErr} (hp : p ∈ e.all_nodes) (hc : c ∈ p.2.choices)
    (hx : x ∈ choiceErrors e p.1 c) : x ∈ errors e := by
  unfold errors
  rw [List.mem_append]
  right
  rw [mem_flatMapL]
  refine ⟨p, hp, ?_⟩
  rw [List.mem_append]
  right
  rw [mem_flatMapL]
  exact ⟨c, hc, hx⟩

/-- An empty error list forces every authored command to be valid. -/
theorem errors_nil_command_valid {e : Engine} (h : errors e = []) :
    ∀ p ∈ e.all_nodes, ∀ c ∈ p.2.choices, ∀ cmd, c.command = some cmd →
      command_is_valid e cmd = true := by
  intro p hp c hc cmd hcmd
  by_contra hvalid
  have hmem : ParseErr.invalidCommand p.1 cmd ∈ errors e := by
    refine choiceError_mem_errors hp hc ?_
    unfold choiceErrors
    rw [hcmd]
    simp only [Bool.not_eq_true] at hvalid
    simp [hvalid, List.mem_append]
  rw [h] at hmem
  exact absurd hmem (List.not_mem_nil _)

/-- `find?` over a split list returns the head of the suffix when the whole
prefix fails the test. -/
theorem find?_append_first {α : Type} {p : α → Bool} {pre post : List α} {c : α}
    (hpre : ∀ x ∈ pre, p x = false) (hc : p c = true) :
    (pre ++ c :: post).find? p = some c := by
  induction pre with
  | nil => simp [List.find?_cons_of_pos, hc]
  | cons a l ih =>
    have ha : p a = false := hpre a (List.mem_cons_self _ _)
    simp only [List.cons_append, List.find?, ha]
    exact ih (fun x hx => hpre x (List.mem_cons_of_mem _ hx))

/-- Destructor for a successful render: both the display text and the
choice list evaluated successfully and the view is assembled from them. -/
theorem get_current_node_view_ok {fuel : Nat} {e : Engine} {s : Session}
    {node : Node} {view : CurrentNodeView}
    (hnode : get_current_node e s = some node)
    (hview : get_current_node_view fuel e s = .ok view) :
    ∃ d vcs, evaluate_string fuel e s node.display_text = .ok d ∧
      viewChoices fuel e s node.choices = .ok vcs ∧
      view = ⟨d, vcs, node.choices.isEmpty⟩ := by
  unfold get_current_node_view at hview
  simp only [hnode] at hview
  cases hd : evaluate_string fuel e s node.display_text with
  | error err =>
    simp only [hd, Bind.bind, Except.bind] at hview
    exact Except.noConfusion hview
  | ok d =>
    simp only [hd, Bind.bind, Except.bind] at hview
    cases hcs : viewChoices fuel e s node.choices with
    | error err =>
      simp only [hcs] at hview
      exact Except.noConfusion hview
    | ok vcs =>
      simp only [hcs, pure, Except.pure, Except.ok.injEq] at hview
      exact ⟨d, vcs, rfl, rfl, hview.symm⟩

/-- A successful `viewChoices` run keeps exactly the visible choices, in
authored order, each exposing its target id. -/
theorem viewChoices_ok_filter {fuel : Nat} {e : Engine} {s : Session} :
    ∀ {cs : List Choice} {vs : List ChoiceView},
      viewChoices fuel e s cs = .ok vs →
      vs.map (fun v => v.id) =
        (cs.filter (choice_is_visible fuel e s)).map (fun c => c.next_node_id)
  | [], vs, h => by
    simp only [viewChoices, Except.ok.injEq] at h
    simp [← h]
  | c :: rest, vs, h => by
    unfold viewChoices at h
    cases hreq : c.requirement with
    | none =>
      simp only [hreq, Bind.bind, Except.bind, pure, Except.pure, if_true] at h
      cases htxt : evaluate_string fuel e s c.text with
      | error err =>
        simp only [htxt] at h
        exact Except.noConfusion h
      | ok txt =>
        simp only [htxt] at h
        cases htail : viewChoices fuel e s rest with
        | error err =>
          simp only [htail] at h
          exact Except.noConfusion h
        | ok tail =>
          simp only [htail, Except.ok.injEq] at h
          have ih := viewChoices_ok_filter htail
          simp [← h, List.filter, choice_is_visible, hreq, ih]
    | some req =>
      simp only [hreq, Bind.bind, Except.bind] at h
      cases hev : evaluate_expression fuel e s req with
      | error err =>
        simp only [hev] at h
        exact Except.noConfusion h
      | ok v =>
        simp only [hev, pure, Except.pure] at h
        cases htr : v.is_truthy with
        | false =>
          simp only [htr, Bool.false_eq_true, if_false] at h
          have ih := viewChoices_ok_filter h
          simp [ih, List.filter, choice_is_visible, hreq, hev, htr]
        | true =>
          simp only [htr, if_true] at h
          cases htxt : evaluate_string fuel e s c.text with
          | error err =>
            simp only [htxt] at h
            exact Except.noConfusion h
          | ok txt =>
            simp only [htxt] at h
            cases htail : viewChoices fuel e s rest with
            | error err =>
              simp only [htail] at h
              exact Except.noConfusion h
            | ok tail =>
              simp only [htail, Except.ok.injEq] at h
              have ih := viewChoices_ok_filter htail
              simp [← h, List.filter, choice_is_visible, hreq, hev, htr, ih]

/-- The two inline operand tests of the code coincide with the spec's
description of a statically Int-typed operand. -/
theorem operand_is_int_eq_static (e : Engine) (x : Expression) :
    operand_is_int e x = static_int_operand e x := rfl

/-- A statically Int-typed operand always passes `expression_is_valid`. -/
theorem static_int_operand_valid {e : Engine} {x : Expression}
    (h : static_int_operand e x = true) : expression_is_valid e x = true := by
  cases x with
  | value v =>
    cases v with
    | int i => rfl
    | bool b => exact absurd h (by simp [static_int_operand])
    | string fs => exact absurd h (by simp [static_int_operand])
  | name n =>
    simp only [static_int_operand] at h
    show containsA e.default_variables n = true
    unfold containsA
    cases hl : lookupA e.default_variables n with
    | none => rw [hl] at h; exact absurd h (by simp)
    | some v => rfl
  | equals l r => exact absurd h (by simp [static_int_operand])
  | notEquals l r => exact absurd h (by simp [static_int_operand])
  | greaterThan l r => exact absurd h (by simp [static_int_operand])
  | lessThan l r => exact absurd h (by simp [static_int_operand])

/-! ### Claim theorems -/

/-- Claim C1 (the code contradicts it): on the input `=START "hi" ?` the
parser succeeds instead of failing, returning the longest parsable prefix
and silently dropping the malformed suffix `?`, and `from_program` then
builds and returns the engine, so a syntactic failure does not prevent
engine construction. -/
theorem parse_program_drops_malformed_suffix :
    parse_program "=START \"hi\" ?".data =
      some ("?".data,
        [ProgramPart.nodeDefinition "START"
          { display_text := ⟨[FormatStringPart.literal "hi"]⟩, choices := [] }]) ∧
    from_program "=START \"hi\" ?" =
      .ok { default_variables := [],
            all_nodes := [("START",
              { display_text := ⟨[FormatStringPart.literal "hi"]⟩, choices := [] })] } :=
  ⟨by decide, by decide⟩

/-- Claim C2 counterexample: a script whose only defect is the single bad
reference `y` inside a requirement yields two error records
(`BadReferenceInExpression` and `InvalidExpression`), not one. -/
theorem single_bad_reference_yields_two_records :
    from_program "=START \"a\" [IF y] \"go\" -> START" =
      .error (.semantic
        [ParseErr.badReferenceInExpression "START" "y",
         ParseErr.invalidExpression "START" (Expression.name "y")]) := by
  decide

/-- Claim C2 (amended): build returns an Engine exactly when the defect
list is empty and otherwise returns the whole non-empty defect list; but a
single unresolved name used as a requirement produces two records — a
`BadReferenceInExpression` and an `InvalidExpression` — so the list is not
sized one-per-independent-defect. -/
theorem build_is_all_or_nothing_and_doubles_requirement_defects :
    (∀ src e, from_program src = .ok e → errors e = []) ∧
    (∀ src errs, from_program src = .error (.semantic errs) → errs ≠ []) ∧
    (∀ (e : Engine) (p : String × Node) (c : Choice) (n : String),
      p ∈ e.all_nodes → c ∈ p.2.choices → c.requirement = some (.name n) →
      containsA e.default_variables n = false →
      ParseErr.badReferenceInExpression p.1 n ∈ errors e ∧
      ParseErr.invalidExpression p.1 (.name n) ∈ errors e) := by
  refine ⟨?_, ?_, ?_⟩
  · intro src e h
    unfold from_program at h
    cases hp : parse_program src.data with
    | none =>
      rw [hp] at h
      exact Except.noConfusion h
    | some r =>
      simp only [hp] at h
      split at h
      · next hemp =>
        cases h
        exact List.isEmpty_iff.mp hemp
      · exact Except.noConfusion h
  · intro src errs h
    unfold from_program at h
    cases hp : parse_program src.data with
    | none =>
      rw [hp] at h
      simp only [Except.error.injEq] at h
      exact BuildErr.noConfusion h
    | some r =>
      simp only [hp] at h
      split at h
      · exact Except.noConfusion h
      · next hemp =>
        simp only [Except.error.injEq, BuildErr.semantic.injEq] at h
        intro hnil
        rw [hnil] at h
        rw [h] at hemp
        exact hemp rfl
  · intro e p c n hp hc hreq hcont
    constructor
    · refine choiceError_mem_errors hp hc ?_
      unfold choiceErrors
      rw [hreq]
      simp [bad_names_in_expression, hcont, List.mem_append]
    · refine choiceError_mem_errors hp hc ?_
      unfold choiceErrors
      rw [hreq]
      have hval : expression_is_valid e (.name n) = false := hcont
      simp [hval, List.mem_append]

/-- Witness for C2: a clean script builds with an empty defect list, and in
the counterexample engine the single bad reference `y` contributes both
records. -/
theorem build_is_all_or_nothing_and_doubles_requirement_defects_witness :
    errors { default_variables := [],
             all_nodes := [("START",
               { display_text := ⟨[FormatStringPart.literal "hi"]⟩,
                 choices := [] })] } = [] ∧
    (ParseErr.badReferenceInExpression "START" "y" ∈ errors c2_engine ∧
     ParseErr.invalidExpression "START" (Expression.name "y") ∈ errors c2_engine) :=
  ⟨build_is_all_or_nothing_and_doubles_requirement_defects.1 "=START \"hi\"" _
     (by decide),
   build_is_all_or_nothing_and_doubles_requirement_defects.2.2 c2_engine
     ("START", node_c2_START) choice_c2 "y" (by decide) (by decide) (by decide)
     (by decide)⟩

/-- Claim C3: on a validated engine (empty error list) and a session whose
variable names cover the declared defaults, `choose_option` succeeds exactly
when the chosen id is one of the current node's authored choice targets;
requirements are never consulted by this membership test. -/
theorem choose_option_success_iff_authored_target
    (e : Engine) (s : Session) (id : String) (node : Node)
    (hnode : get_current_node e s = some node)
    (hvalid : errors e = [])
    (hvars : ∀ n, containsA e.default_variables n = true → containsA s.vars n = true) :
    (∃ s', choose_option e s id = .ok (s', .success)) ↔
      id ∈ node.choices.map (fun c => c.next_node_id) := by
  unfold choose_option
  simp only [hnode]
  by_cases hmem : id ∈ node.choices.map (fun c => c.next_node_id)
  · have hcon : (node.choices.map (fun c => c.next_node_id)).contains id = true := by
      simpa [List.contains] using List.elem_iff.mpr hmem
    simp only [hcon, Bool.not_true, Bool.false_eq_true, if_false]
    obtain ⟨c, hcmem, hcid⟩ := List.mem_map.mp hmem
    have hsome : (node.choices.find? (fun c => c.next_node_id == id)).isSome :=
      List.find?_isSome.mpr ⟨c, hcmem, by simp [hcid]⟩
    obtain ⟨c', hfind⟩ := Option.isSome_iff_exists.mp hsome
    simp only [hfind]
    have hc'mem : c' ∈ node.choices := List.mem_of_find?_eq_some hfind
    refine iff_of_true ?_ hmem
    cases hcmd : c'.command with
    | none =>
      exact ⟨{ vars := s.vars, current_node_id := id },
        by simp [hcmd, Bind.bind, Except.bind, pure, Except.pure]⟩
    | some cmd =>
      cases cmd with
      | set n v =>
        have hl : lookupA e.all_nodes s.current_node_id = some node := hnode
        have hcv : command_is_valid e (.set n v) = true :=
          errors_nil_command_valid hvalid (s.current_node_id, node) (lookupA_mem hl)
            c' hc'mem _ hcmd
        have hcont : containsA e.default_variables n = true := by
          unfold command_is_valid at hcv
          exact ((Bool.and_eq_true _ _).mp hcv).1
        obtain ⟨w, hw⟩ := Option.isSome_iff_exists.mp (hvars n hcont)
        exact ⟨{ vars := updateA s.vars n v, current_node_id := id },
          by simp [hcmd, do_command, hw, Bind.bind, Except.bind, pure, Except.pure]⟩
  · have hcon : (node.choices.map (fun c => c.next_node_id)).contains id = false := by
      rw [← Bool.not_eq_true]
      intro hx
      exact hmem (List.elem_iff.mp (by simpa [List.contains] using hx))
    simp only [hcon, Bool.not_false, if_true]
    refine iff_of_false ?_ hmem
    rintro ⟨s', hs'⟩
    simp only [Except.ok.injEq, Prod.mk.injEq] at hs'
    exact ChoiceResult.noConfusion hs'.2

/-- Witness for C3: in `engineB` the single choice's requirement evaluates
to false, yet choosing its target `A` succeeds. -/
theorem choose_option_success_iff_authored_target_witness :
    evaluate_expression 5 engineB (new_session engineB) reqB = .ok (.bool false) ∧
    (∃ s', choose_option engineB (new_session engineB) "A" = .ok (s', .success)) :=
  ⟨by decide,
   (choose_option_success_iff_authored_target engineB (new_session engineB) "A"
      nodeB_START (by decide) (by decide) (fun _ h => h)).mpr (by decide)⟩

/-- Claim C4: choosing an id that is not an authored target returns
`InvalidOption` carrying the unchanged current node id and the rejected
option, and the session — node pointer and every variable binding — is
returned unmodified; no command runs on this path. -/
theorem choose_option_invalid_id_unchanged_session
    (e : Engine) (s : Session) (id : String) (node : Node)
    (hnode : get_current_node e s = some node)
    (hid : (node.choices.map (fun c => c.next_node_id)).contains id = false) :
    choose_option e s id = .ok (s, .invalidOption s.current_node_id id) := by
  unfold choose_option
  simp only [hnode, hid, Bool.not_false, if_true]

/-- Witness for C4 at a concrete engine and a foreign id. -/
theorem choose_option_invalid_id_unchanged_session_witness :
    choose_option engineB (new_session engineB) "ZZZ" =
      .ok (new_session engineB, .invalidOption "START" "ZZZ") :=
  choose_option_invalid_id_unchanged_session engineB (new_session engineB) "ZZZ"
    nodeB_START (by decide) (by decide)

/-- Claim C5: the rendered view's `game_over` flag equals emptiness of the
node's full authored choice list; in particular a node with exactly one
authored choice whose requirement evaluates falsy renders zero visible
choices with `game_over = false`. -/
theorem game_over_counts_authored_choices
    (fuel : Nat) (e : Engine) (s : Session) (node : Node) (view : CurrentNodeView)
    (hnode : get_current_node e s = some node)
    (hview : get_current_node_view fuel e s = .ok view) :
    view.game_over = node.choices.isEmpty ∧
    (∀ c r v, node.choices = [c] → c.requirement = some r →
      evaluate_expression fuel e s r = .ok v → v.is_truthy = false →
      view.choices = [] ∧ view.game_over = false) := by
  obtain ⟨d, vcs, hd, hcs, hv⟩ := get_current_node_view_ok hnode hview
  subst hv
  refine ⟨rfl, ?_⟩
  intro c r v hc hr hev htr
  rw [hc] at hcs
  unfold viewChoices at hcs
  simp only [hr, Bind.bind, Except.bind, hev, pure, Except.pure, htr,
    Bool.false_eq_true, if_false, viewChoices, Except.ok.injEq] at hcs
  exact ⟨hcs.symm, by simp [hc]⟩

/-- Witness for C5: rendering `engineB`'s START node yields no visible
choices yet `game_over = false`, because one choice was authored. -/
theorem game_over_counts_authored_choices_witness :
    get_current_node_view 5 engineB (new_session engineB) =
      .ok { display_text := "hi", choices := [], game_over := false } ∧
    (({ display_text := "hi", choices := [], game_over := false } :
        CurrentNodeView).choices = [] ∧
     ({ display_text := "hi", choices := [], game_over := false } :
        CurrentNodeView).game_over = false) :=
  ⟨by decide,
   (game_over_counts_authored_choices 5 engineB (new_session engineB) nodeB_START
       { display_text := "hi", choices := [], game_over := false }
       (by decide) (by decide)).2
     choiceB reqB (Value.bool false) (by decide) (by decide) (by decide) (by decide)⟩

/-- Claim C6: an ordering requirement validates exactly when both operands
are statically Int-typed (integer literal, or name declared with an Int
default); any other shape is rejected and recorded as `InvalidExpression`;
equality and inequality place no static-type restriction on literals. -/
theorem ordering_requires_static_int_operands (e : Engine) :
    (∀ l r, expression_is_valid e (.greaterThan l r) =
      (static_int_operand e l && static_int_operand e r)) ∧
    (∀ l r, expression_is_valid e (.lessThan l r) =
      (static_int_operand e l && static_int_operand e r)) ∧
    (∀ v1 v2, expression_is_valid e (.equals (.value v1) (.value v2)) = true) ∧
    (∀ v1 v2, expression_is_valid e (.notEquals (.value v1) (.value v2)) = true) ∧
    (∀ (p : String × Node) (c : Choice) (l r : Expression),
      p ∈ e.all_nodes → c ∈ p.2.choices →
      c.requirement = some (.greaterThan l r) →
      (static_int_operand e l && static_int_operand e r) = false →
      ParseErr.invalidExpression p.1 (.greaterThan l r) ∈ errors e) := by
  have key : ∀ l r, expression_is_valid e (.greaterThan l r) =
      (static_int_operand e l && static_int_operand e r) := by
    intro l r
    have heq : expression_is_valid e (.greaterThan l r) =
        if operand_is_int e l && operand_is_int e r then
          expression_is_valid e l && expression_is_valid e r
        else false := rfl
    rw [heq, operand_is_int_eq_static, operand_is_int_eq_static]
    cases hst : (static_int_operand e l && static_int_operand e r) with
    | true =>
      obtain ⟨h1, h2⟩ := (Bool.and_eq_true _ _).mp hst
      simp [static_int_operand_valid h1, static_int_operand_valid h2]
    | false =>
      simp
  have keyLt : ∀ l r, expression_is_valid e (.lessThan l r) =
      (static_int_operand e l && static_int_operand e r) := by
    intro l r
    have heq : expression_is_valid e (.lessThan l r) =
        if operand_is_int e l && operand_is_int e r then
          expression_is_valid e l && expression_is_valid e r
        else false := rfl
    rw [heq, operand_is_int_eq_static, operand_is_int_eq_static]
    cases hst : (static_int_operand e l && static_int_operand e r) with
    | true =>
      obtain ⟨h1, h2⟩ := (Bool.and_eq_true _ _).mp hst
      simp [static_int_operand_valid h1, static_int_operand_valid h2]
    | false =>
      simp
  refine ⟨key, keyLt, fun v1 v2 => rfl, fun v1 v2 => rfl, ?_⟩
  intro p c l r hp hc hreq hstatic
  refine choiceError_mem_errors hp hc ?_
  unfold choiceErrors
  rw [hreq]
  have hval : expression_is_valid e (.greaterThan l r) = false := by
    rw [key l r, hstatic]
  simp [hval, List.mem_append]

/-- Witness for C6: in `c6_engine` the requirement `a > "x"` fails
validation and is recorded as `InvalidExpression`. -/
theorem ordering_requires_static_int_operands_witness :
    expression_is_valid c6_engine
      (.greaterThan (Expression.name "a")
        (Expression.value (Value.string ⟨[FormatStringPart.literal "x"]⟩))) =
      (static_int_operand c6_engine (Expression.name "a") &&
       static_int_operand c6_engine
         (Expression.value (Value.string ⟨[FormatStringPart.literal "x"]⟩))) ∧
    ParseErr.invalidExpression "START"
      (.greaterThan (Expression.name "a")
        (Expression.value (Value.string ⟨[FormatStringPart.literal "x"]⟩))) ∈
      errors c6_engine :=
  ⟨(ordering_requires_static_int_operands c6_engine).1 (Expression.name "a")
     (Expression.value (Value.string ⟨[FormatStringPart.literal "x"]⟩)),
   (ordering_requires_static_int_operands c6_engine).2.2.2.2
     ("START", node_c6_START) choice_c6 (Expression.name "a")
     (Expression.value (Value.string ⟨[FormatStringPart.literal "x"]⟩))
     (by decide) (by decide) (by decide) (by decide)⟩

/-- Claim C7 (the code contradicts it): `c7_source` validates —
`from_program` returns the engine and its error list is empty — yet
rendering the very first node of a fresh session fails on the lookup of
the undeclared variable `y`, i.e. the defensive unwrap branch of the
evaluator is reachable from a validated engine. -/
theorem validated_engine_render_panics_on_lookup :
    from_program c7_source = .ok c7_engine ∧
    errors c7_engine = [] ∧
    get_current_node_view 5 c7_engine (new_session c7_engine) =
      .error (.missingVar "y") :=
  ⟨by decide, by decide, by decide⟩

/-- Claim C8: values of different variants always compare unequal (without
evaluating anything), and two strings compare equal exactly when their
rendered texts are equal. -/
theorem values_are_equal_variant_and_rendered (fuel : Nat) (e : Engine) (s : Session) :
    (∀ l r, Value.sameVariant l r = false → values_are_equal fuel e s l r = .ok false) ∧
    (∀ f1 f2 t1 t2, evaluate_string fuel e s f1 = .ok t1 →
      evaluate_string fuel e s f2 = .ok t2 →
      values_are_equal fuel e s (.string f1) (.string f2) = .ok (t1 == t2)) := by
  constructor
  · intro l r h
    cases l <;> cases r <;> simp [Value.sameVariant] at h <;> rfl
  · intro f1 f2 t1 t2 h1 h2
    simp [values_are_equal, h1, h2, Bind.bind, Except.bind, pure, Except.pure]

/-- Witness for C8: two different templates rendering the same text compare
equal under `=`, and an Int never equals a Bool. -/
theorem values_are_equal_variant_and_rendered_witness :
    values_are_equal 3 c2_engine (new_session c2_engine)
      (.string ⟨[FormatStringPart.literal "ab"]⟩)
      (.string ⟨[FormatStringPart.literal "a", FormatStringPart.literal "b"]⟩) =
      .ok ("ab" == "ab") ∧
    values_are_equal 3 c2_engine (new_session c2_engine)
      (.int 1) (.bool true) = .ok false :=
  ⟨(values_are_equal_variant_and_rendered 3 _ _).2 _ _ _ _ (by decide) (by decide),
   (values_are_equal_variant_and_rendered 3 _ _).1 _ _ (by decide)⟩

/-- Claim C9: truthiness is `Bool(b) ↦ b`, `Int(i) ↦ i ≠ 0`,
`String ↦ template non-empty` (no rendering involved), and a successful
render keeps exactly the requirement-free or truthy-requirement choices,
in authored order. -/
theorem truthiness_and_requirement_filter :
    (∀ b, (Value.bool b).is_truthy = b) ∧
    (∀ i : Int, ((Value.int i).is_truthy = true ↔ i ≠ 0)) ∧
    (∀ fs : FormatString, (Value.string fs).is_truthy = !fs.parts.isEmpty) ∧
    (∀ (fuel : Nat) (e : Engine) (s : Session) (node : Node) (view : CurrentNodeView),
      get_current_node e s = some node →
      get_current_node_view fuel e s = .ok view →
      view.choices.map (fun v => v.id) =
        (node.choices.filter (choice_is_visible fuel e s)).map
          (fun c => c.next_node_id)) := by
  refine ⟨fun b => rfl, fun i => ?_, fun fs => rfl, ?_⟩
  · simp [Value.is_truthy]
  · intro fuel e s node view hnode hview
    obtain ⟨d, vcs, hd, hcs, hv⟩ := get_current_node_view_ok hnode hview
    subst hv
    exact viewChoices_ok_filter hcs

/-- Witness for C9: the falsy-requirement choice of `engineB` is absent
from the rendered view's visible list. -/
theorem truthiness_and_requirement_filter_witness :
    get_current_node_view 5 engineB (new_session engineB) =
      .ok { display_text := "hi", choices := [], game_over := false } ∧
    (({ display_text := "hi", choices := [], game_over := false } :
        CurrentNodeView).choices.map (fun v => v.id) =
      (nodeB_START.choices.filter
        (choice_is_visible 5 engineB (new_session engineB))).map
          (fun c => c.next_node_id)) :=
  ⟨by decide,
   truthiness_and_requirement_filter.2.2.2 5 engineB (new_session engineB)
     nodeB_START _ (by decide) (by decide)⟩

/-- Claim C10: when several authored choices share the chosen target id, a
successful `choose_option` executes the command of the first such choice in
authored order — the later duplicates are never consulted — and then moves
the session to the target. -/
theorem choose_option_runs_first_matching_choice
    (e : Engine) (s : Session) (id : String) (node : Node)
    (pre post : List Choice) (c : Choice)
    (hnode : get_current_node e s = some node)
    (hsplit : node.choices = pre ++ c :: post)
    (hpre : ∀ c' ∈ pre, (c'.next_node_id == id) = false)
    (hc : c.next_node_id = id)
    (hcmd : ∀ n v, c.command = some (.set n v) → (lookupA s.vars n).isSome = true) :
    choose_option e s id =
      .ok ({ vars := match c.command with
                     | some (.set n v) => updateA s.vars n v
                     | none => s.vars,
             current_node_id := id }, .success) := by
  unfold choose_option
  simp only [hnode]
  have hmem : c ∈ node.choices := by
    rw [hsplit]; exact List.mem_append_right _ (List.mem_cons_self _ _)
  have hcon : (node.choices.map (fun x => x.next_node_id)).contains id = true := by
    simpa [List.contains] using List.elem_iff.mpr (List.mem_map.mpr ⟨c, hmem, hc⟩)
  simp only [hcon, Bool.not_true, Bool.false_eq_true, if_false]
  have hfind : node.choices.find? (fun x => x.next_node_id == id) = some c := by
    rw [hsplit]; exact find?_append_first hpre (by simp [hc])
  simp only [hfind]
  cases hcmdv : c.command with
  | none => simp [hcmdv, Bind.bind, Except.bind, pure, Except.pure]
  | some cmd =>
    cases cmd with
    | set n v =>
      obtain ⟨w, hw⟩ := Option.isSome_iff_exists.mp (hcmd n v hcmdv)
      simp [hcmdv, do_command, hw, Bind.bind, Except.bind, pure, Except.pure]

/-- Witness for C10: in `engineDup` both choices target `B`; choosing `B`
runs the first choice's command (`g = 10`), not the second's (`g = 99`). -/
theorem choose_option_runs_first_matching_choice_witness :
    choose_option engineDup (new_session engineDup) "B" =
      .ok ({ vars := updateA (new_session engineDup).vars "g" (Value.int 10),
             current_node_id := "B" }, .success) :=
  choose_option_runs_first_matching_choice engineDup (new_session engineDup) "B"
    nodeDup_START []
    [{ requirement := none,
       text := ⟨[FormatStringPart.literal "second"]⟩,
       next_node_id := "B",
       command := some (Command.set "g" (Value.int 99)) }]
    { requirement := none,
      text := ⟨[FormatStringPart.literal "first"]⟩,
      next_node_id := "B",
      command := some (Command.set "g" (Value.int 10)) }
    (by decide) (by decide) (fun c' hc' => absurd hc' (List.not_mem_nil c'))
    (by decide) (fun n v h => by cases h; decide)

end Cyoa
